import Mathlib

/-!
Verification of the NiceObjects synchronization engine.

The engine keeps a GameMaker project's XML object tree ("GM" / native side)
and a human-editable text tree ("human" / mirror side) consistent.  This file
gives a shallow embedding of the engine's code:

* path manipulation (`filepath.Base`, `filepath.Ext`, `strings.Split`,
  `filepath.Join`) is modelled over `List Char`;
* the rolling reverb/dedup state and the timing gates `humanFileTimingOk` /
  `gmFileTimingOk` are translated from `main.go`;
* the watcher-event dispatcher `processWatcherEvent` is translated from
  `main.go`;
* the file-level translation wrappers `GMObjectFileToHumanObjectFile` /
  `HumanObjectFileToGMObjectFile` are translated from the repository's
  source over an explicit filesystem model;
* the translator internals (`GMObject`, `WriteHumanObject`,
  `ReadHumanObject`, `AppendResourceToGMProject`) live in a source file that
  is not part of the sources at hand; they are modelled from the
  specification's data model and contracts, and each such definition is
  marked `Modelled from the spec:` in its doc comment.
-/

namespace NiceObjects

/-- A file path, as its sequence of characters (Go manipulates paths as
plain strings). -/
abbrev Path := List Char

/-- Model of Go `strings.Split(s, sep)` for a single-character separator:
splits into the (possibly empty) runs between occurrences of `sep`.
`splitOnChar sep l` is never the empty list. -/
def splitOnChar (sep : Char) : List Char → List (List Char)
  | [] => [[]]
  | c :: cs =>
    let r := splitOnChar sep cs
    if c = sep then [] :: r
    else
      match r with
      | [] => [[c]]
      | g :: gs => (c :: g) :: gs

/-- Model of Go `filepath.Base`: last nonempty slash-separated component;
`"."` for the empty path, `"/"` when the path is all separators. -/
def goBase (p : Path) : Path :=
  let comps := (splitOnChar '/' p).filter (fun c => c ≠ [])
  comps.getLastD (if p = [] then ['.'] else ['/'])

/-- Model of Go `filepath.Ext`: the suffix of the final slash-separated
element starting at its final dot, empty when that element has no dot. -/
def extGo (p : Path) : Path :=
  let b := (splitOnChar '/' p).getLastD []
  let parts := splitOnChar '.' b
  if parts.length ≤ 1 then [] else '.' :: parts.getLastD []

/-- Model of Go `strings.Split(s, ".")[0]`, the idiom `main.go` uses to
derive a resource name from a file name: everything before the first dot. -/
def firstDotPart (b : Path) : Path := (splitOnChar '.' b).headD []

/-- Model of Go `filepath.Join(a, b)` on already-clean paths (the `Clean`
normalisation is irrelevant for the engine's concatenations). -/
def joinPath (a b : Path) : Path := a ++ '/' :: b

/-! ### Rolling reverb/dedup state (`main.go` globals) -/

/-- The four globals `gmChanged`, `humanChanged`, `lastGMFileChanged`,
`lastHumanFileChanged` of `main.go`.  Times are nanoseconds on a monotone
clock (`time.Time` differences are modelled as integer subtraction). -/
structure SyncState where
  gmChanged : Int
  humanChanged : Int
  lastGMFileChanged : Path
  lastHumanFileChanged : Path
deriving DecidableEq

/-- `const reverbSpacing time.Duration = 1 * time.Second`, in ns. -/
def reverbSpacing : Int := 1000000000

/-- `const dedupSpacing time.Duration = 100 * time.Millisecond`, in ns. -/
def dedupSpacing : Int := 100000000

/-- `humanFileTimingOk` from `main.go`: a human-side event is processed iff
the GM side did not write within `reverbSpacing`, and the event is not a
duplicate notification (same path as the last human change within
`dedupSpacing`).  `time.Since(x)` is `now - x`. -/
def humanFileTimingOk (s : SyncState) (now : Int) (humanFile : Path) : Bool :=
  decide (now - s.gmChanged > reverbSpacing) &&
    (decide (s.lastHumanFileChanged ≠ humanFile) ||
      decide (now - s.humanChanged > dedupSpacing))

/-- `gmFileTimingOk` from `main.go`, the mirror image of
`humanFileTimingOk`. -/
def gmFileTimingOk (s : SyncState) (now : Int) (gmFile : Path) : Bool :=
  decide (now - s.humanChanged > reverbSpacing) &&
    (decide (s.lastGMFileChanged ≠ gmFile) ||
      decide (now - s.gmChanged > dedupSpacing))

/-- The mirror-side file used by the specification's scenarios. -/
def enemyMirrorPath : Path := "example/gm_txt/Enemy.gmo".toList

/-- State right after a native-side (GM) translation finished at absolute
time 1 s, with no human-side activity yet. -/
def afterGMTranslation : SyncState :=
  { gmChanged := 1000000000
    humanChanged := 0
    lastGMFileChanged := []
    lastHumanFileChanged := [] }

/-! ### Watcher events and the dispatcher (`processWatcherEvent`) -/

/-- `fsnotify` operation kinds (`event.Op`); the engine compares against
`fsnotify.Write` only. -/
inductive FileOp
  | write
  | create
  | remove
  | rename
  | chmod
deriving DecidableEq

/-- An `fsnotify.Event`: a path (`event.Name`) and an operation kind. -/
structure Event where
  name : Path
  op : FileOp
deriving DecidableEq

/-- The translation/copy call `processWatcherEvent` dispatches to. -/
inductive SyncAction
  | translateHuman (p : Path)
  | copyHuman (p : Path)
  | translateGM (p : Path)
  | copyGM (p : Path)
deriving DecidableEq

/-- The three watched root directories (`humanDir`, `gmObjectsDir`,
`gmScriptsDir` globals of `main.go`). -/
structure Roots where
  humanDir : Path
  gmObjectsDir : Path
  gmScriptsDir : Path

/-- `processWatcherEvent` from `main.go`: on a `Write` event, classify the
path by root prefix and extension; gate through the timing check; on pass,
record the rolling state for the source side and dispatch the
translation/copy.  Returns the updated globals and the dispatched call
(`none` when the event is ignored or suppressed). -/
def processWatcherEvent (r : Roots) (now : Int) (s : SyncState) (e : Event) :
    SyncState × Option SyncAction :=
  if e.op = FileOp.write then
    -- `isHumanObj`, `isHumanScript`, `isGMObj`, `isGMScript` of `main.go`,
    -- inlined into the dispatch chain.
    if r.humanDir.isPrefixOf e.name && decide (extGo e.name = ".gmo".toList) then
      if humanFileTimingOk s now e.name then
        ({ s with humanChanged := now, lastHumanFileChanged := e.name },
          some (.translateHuman e.name))
      else (s, none)
    else if r.humanDir.isPrefixOf e.name && decide (extGo e.name = ".gml".toList) then
      if humanFileTimingOk s now e.name then
        ({ s with humanChanged := now, lastHumanFileChanged := e.name },
          some (.copyHuman e.name))
      else (s, none)
    else if r.gmObjectsDir.isPrefixOf e.name && decide (extGo e.name = ".gmx".toList) then
      if gmFileTimingOk s now e.name then
        ({ s with gmChanged := now, lastGMFileChanged := e.name },
          some (.translateGM e.name))
      else (s, none)
    else if r.gmScriptsDir.isPrefixOf e.name && decide (extGo e.name = ".gml".toList) then
      if gmFileTimingOk s now e.name then
        ({ s with gmChanged := now, lastGMFileChanged := e.name },
          some (.copyGM e.name))
      else (s, none)
    else (s, none)
  else (s, none)

/-- The classification condition of `processWatcherEvent`: a write-kind
event whose path has a watched root as prefix together with the matching
extension. -/
def eventRelevant (r : Roots) (e : Event) : Bool :=
  decide (e.op = FileOp.write) &&
    ((r.humanDir.isPrefixOf e.name &&
        (decide (extGo e.name = ".gmo".toList) || decide (extGo e.name = ".gml".toList))) ||
      (r.gmObjectsDir.isPrefixOf e.name && decide (extGo e.name = ".gmx".toList)) ||
      (r.gmScriptsDir.isPrefixOf e.name && decide (extGo e.name = ".gml".toList)))

/-- Concrete roots for a project file `example/example.project.gmx`, as
computed in `main.go` (`objects`, `scripts` and `gm_txt` under the project
directory). -/
def exampleRoots : Roots :=
  { humanDir := "example/gm_txt".toList
    gmObjectsDir := "example/objects".toList
    gmScriptsDir := "example/scripts".toList }

/-- The all-zero state the engine starts in (`time.Time` and `string`
zero values). -/
def initialSyncState : SyncState :=
  { gmChanged := 0, humanChanged := 0
    lastGMFileChanged := [], lastHumanFileChanged := [] }

/-- C1.  An inbound event on either side is suppressed exactly when the
opposite side changed within `reverbSpacing` or the event duplicates that
side's own last change within `dedupSpacing`; in particular a mirror-side
write 200 ms after a native-side translation is suppressed, and the same
event 1.2 s after is processed. -/
theorem reverb_suppression_characterization :
    (∀ (s : SyncState) (t : Int) (f : Path),
      humanFileTimingOk s t f = false ↔
        (t - s.gmChanged ≤ reverbSpacing ∨
          (s.lastHumanFileChanged = f ∧ t - s.humanChanged ≤ dedupSpacing))) ∧
    (∀ (s : SyncState) (t : Int) (f : Path),
      gmFileTimingOk s t f = false ↔
        (t - s.humanChanged ≤ reverbSpacing ∨
          (s.lastGMFileChanged = f ∧ t - s.gmChanged ≤ dedupSpacing))) ∧
    humanFileTimingOk afterGMTranslation 1200000000 enemyMirrorPath = false ∧
    humanFileTimingOk afterGMTranslation 2200000000 enemyMirrorPath = true := by
  refine ⟨?_, ?_, by decide, by decide⟩
  · intro s t f
    simp only [humanFileTimingOk, Bool.and_eq_false_iff, Bool.or_eq_false_iff,
      decide_eq_false_iff_not, not_lt, not_not]
  · intro s t f
    simp only [gmFileTimingOk, Bool.and_eq_false_iff, Bool.or_eq_false_iff,
      decide_eq_false_iff_not, not_lt, not_not]

/-! ### The translator data model.

The Go structures and functions in this section live in the repository's
translator source file, which only the wrappers at hand call into; they
are modelled from the specification (spec §3 data model, §4.1 translator
contract). -/

/-- Modelled from the spec: a typed ActionBlock argument value
(string/number/resource-reference/boolean).  The concrete Go type is in
the translator source file absent from the sources at hand. -/
inductive GMValue
  | vstr (s : String)
  | vnum (n : Int)
  | vres (r : String)
  | vbool (b : Bool)
deriving DecidableEq

/-- Modelled from the spec: an ActionBlock — an action-kind identifier, a
target reference, and the ordered argument values. -/
structure ActionBlock where
  kind : String
  target : String
  args : List GMValue
deriving DecidableEq

/-- Modelled from the spec: an EventBlock — an event key (category +
subtype) and its ordered ActionBlocks. -/
structure EventBlock where
  category : String
  subtype : String
  actions : List ActionBlock
deriving DecidableEq

/-- Modelled from the spec: `GMObject`, the parsed native XML object (the
spec's NativeResource): ordered typed fields (solidity flags, sprite/mask
references, numeric properties) plus the ordered EventBlocks.
`physicsData` stands for the native-only content that the mirror grammar
does not represent and that the merge must preserve from the base. -/
structure GMObject where
  solid : Bool
  visible : Bool
  persistent : Bool
  spriteName : String
  maskName : String
  depth : Int
  physicsData : String
  events : List EventBlock
deriving DecidableEq

/-- A lexical token of the mirror text (the byte-level lexer is I/O and
out of scope; the grammar is modelled over token lines). -/
inductive Tok
  | kw (s : String)
  | tstr (s : String)
  | tint (n : Int)
  | tbool (b : Bool)
  | tres (s : String)
deriving DecidableEq

/-- One line of mirror text, as its tokens. -/
abbrev Line := List Tok

/-- A mirror document: its lines. -/
abbrev MirrorText := List Line

/-- Modelled from the spec: the known event categories (the lookup tables
`InitTranslations` builds). -/
def knownEventCategories : List String :=
  ["create", "destroy", "step", "draw", "alarm", "keyboard", "collision"]

/-- Modelled from the spec: the known action kinds with their argument
arities (the lookup tables `InitTranslations` builds). -/
def knownActionKinds : List (String × Nat) :=
  [("move", 2), ("set_variable", 2), ("execute_code", 1),
    ("destroy_instance", 0), ("play_sound", 2)]

/-- Arity of a known action kind, `none` for unknown kinds. -/
def actionArity (k : String) : Option Nat := knownActionKinds.lookup k

/-- Serialisation of one argument value as one token. -/
def writeValue : GMValue → Tok
  | .vstr s => .tstr s
  | .vnum n => .tint n
  | .vres r => .tres r
  | .vbool b => .tbool b

/-- Serialisation of one ActionBlock as one `action` line. -/
def writeAction (a : ActionBlock) : Line :=
  Tok.kw "action" :: Tok.kw a.kind :: Tok.tstr a.target :: a.args.map writeValue

/-- Serialisation of one EventBlock: an `event` header line followed by
its action lines, in order. -/
def writeEvent (e : EventBlock) : List Line :=
  [Tok.kw "event", Tok.kw e.category, Tok.kw e.subtype] ::
    e.actions.map writeAction

/-- Modelled from the spec: `WriteHumanObject` (the spec's
`NativeToMirror`): a total, deterministic serialisation — the field
header lines in a fixed stable order, then the event sections in
document order. -/
def WriteHumanObject (o : GMObject) : MirrorText :=
  [Tok.kw "solid", Tok.tbool o.solid] ::
    [Tok.kw "visible", Tok.tbool o.visible] ::
    [Tok.kw "persistent", Tok.tbool o.persistent] ::
    [Tok.kw "sprite", Tok.tstr o.spriteName] ::
    [Tok.kw "mask", Tok.tstr o.maskName] ::
    [Tok.kw "depth", Tok.tint o.depth] ::
    (o.events.map writeEvent).flatten

/-- Modelled from the spec: the parse failures of the mirror grammar
(malformed section headers, unknown event/action kind tokens,
argument-arity mismatches). -/
inductive ParseError
  | badHeader
  | unknownEvent (cat : String)
  | unknownAction (k : String)
  | arityMismatch (k : String)
  | badActionLine
deriving DecidableEq

/-- Inverse of `writeValue`; keyword tokens are not values. -/
def parseValue : Tok → Option GMValue
  | .tstr s => some (.vstr s)
  | .tint n => some (.vnum n)
  | .tres r => some (.vres r)
  | .tbool b => some (.vbool b)
  | .kw _ => none

/-- Parse a list of argument tokens. -/
def parseValues : List Tok → Option (List GMValue)
  | [] => some []
  | t :: ts =>
    match parseValue t with
    | none => none
    | some v =>
      match parseValues ts with
      | none => none
      | some vs => some (v :: vs)

/-- Whether a line is an `action` line (starts a new action) rather than
the next `event` header. -/
def isActionLine (l : Line) : Bool :=
  match l with
  | Tok.kw s :: _ => s == "action"
  | _ => false

/-- Parse one `action` line: checks the action kind against the known
table and the argument count against its arity. -/
def parseActionLine (l : Line) : Except ParseError ActionBlock :=
  match l with
  | Tok.kw s :: Tok.kw k :: Tok.tstr tgt :: rest =>
    if s = "action" then
      match actionArity k with
      | none => .error (.unknownAction k)
      | some ar =>
        match parseValues rest with
        | none => .error .badActionLine
        | some vs =>
          if vs.length = ar then .ok { kind := k, target := tgt, args := vs }
          else .error (.arityMismatch k)
    else .error .badActionLine
  | _ => .error .badActionLine

/-- Parse consecutive `action` lines. -/
def parseActionLines : List Line → Except ParseError (List ActionBlock)
  | [] => .ok []
  | l :: ls =>
    match parseActionLine l with
    | .error e => .error e
    | .ok a =>
      match parseActionLines ls with
      | .error e => .error e
      | .ok rest => .ok (a :: rest)

theorem length_dropWhile_le {α : Type} (p : α → Bool) (l : List α) :
    (l.dropWhile p).length ≤ l.length := by
  induction l with
  | nil => simp
  | cons a l ih =>
    rw [List.dropWhile_cons]
    split
    · exact le_trans ih (Nat.le_succ _)
    · simp

/-- Parse the event sections: each `event` header (with a known category)
followed by its action lines, until the document ends. -/
def parseEvents : MirrorText → Except ParseError (List EventBlock)
  | [] => .ok []
  | line :: rest =>
    match line with
    | [Tok.kw hd, Tok.kw cat, Tok.kw sub] =>
      if hd = "event" then
        if cat ∈ knownEventCategories then
          match parseActionLines (rest.takeWhile isActionLine) with
          | .error e => .error e
          | .ok acts =>
            match parseEvents (rest.dropWhile isActionLine) with
            | .error e => .error e
            | .ok evs =>
              .ok ({ category := cat, subtype := sub, actions := acts } :: evs)
        else .error (.unknownEvent cat)
      else .error .badHeader
    | _ => .error .badHeader
termination_by t => t.length
decreasing_by
  simp only [List.length_cons]
  exact Nat.lt_succ_of_le (length_dropWhile_le _ _)

/-- Modelled from the spec: `ReadHumanObject` (the spec's
`MirrorToNative`): parse the fixed field header, then the event sections,
and merge the parsed values onto the base document so that native-only
content (`physicsData`) is preserved unchanged.  Fails with a
`ParseError` on malformed headers, unknown event categories, unknown
action kinds, and arity mismatches. -/
def ReadHumanObject (t : MirrorText) (base : GMObject) :
    Except ParseError GMObject :=
  match t with
  | [Tok.kw w1, Tok.tbool so] ::
    [Tok.kw w2, Tok.tbool vi] ::
    [Tok.kw w3, Tok.tbool pe] ::
    [Tok.kw w4, Tok.tstr sp] ::
    [Tok.kw w5, Tok.tstr mk] ::
    [Tok.kw w6, Tok.tint d] :: rest =>
    if w1 = "solid" ∧ w2 = "visible" ∧ w3 = "persistent" ∧
        w4 = "sprite" ∧ w5 = "mask" ∧ w6 = "depth" then
      match parseEvents rest with
      | .error e => .error e
      | .ok evs =>
        .ok { base with
          solid := so, visible := vi, persistent := pe,
          spriteName := sp, maskName := mk, depth := d, events := evs }
    else .error .badHeader
  | _ => .error .badHeader

/-- An ActionBlock whose kind is known with the right arity. -/
def validAction (a : ActionBlock) : Bool :=
  actionArity a.kind == some a.args.length

/-- An EventBlock with a known category and valid actions. -/
def validEvent (e : EventBlock) : Bool :=
  knownEventCategories.contains e.category && e.actions.all validAction

/-- The spec's "structurally valid NativeResource": every event category
and action kind comes from the schema's tables with matching arity. -/
def structurallyValid (o : GMObject) : Bool := o.events.all validEvent

/-! ### Filesystem model and the file-level translation wrappers -/

/-- Contents of one file, at the granularity the wrappers observe: a
well-formed XML object document, a mirror text document, plain bytes, or
the empty content left by `os.Create` truncation. -/
inductive FileData
  | gmXml (o : GMObject)
  | humanText (t : MirrorText)
  | plain (s : String)
  | blank
deriving DecidableEq

/-- A filesystem: contents by path, `none` when the file does not exist. -/
def FS : Type := Path → Option FileData

/-- Whole-file write (`os.Create` + write + close). -/
def fsWrite (fs : FS) (p : Path) (d : FileData) : FS :=
  fun q => if q = p then some d else fs q

/-- The error classes the wrappers report (the Go code wraps them in
formatted error strings). -/
inductive TrErr
  | openErr (p : Path)
  | decodeErr (p : Path)
  | readErr (p : Path) (e : ParseError)
  | encodeErr (p : Path)
  | unknownGroupErr (g : String)
deriving DecidableEq

/-- `GMObjectFileToHumanObjectFile` from the repository source: open and
XML-decode the GM object file (error if either fails), then create the
human file and serialise the object into it. -/
def GMObjectFileToHumanObjectFile (fs : FS) (objFilename humanFilename : Path) :
    Except TrErr FS :=
  match fs objFilename with
  | none => .error (.openErr objFilename)
  | some (FileData.gmXml obj) =>
    .ok (fsWrite fs humanFilename (FileData.humanText (WriteHumanObject obj)))
  | some _ => .error (.decodeErr objFilename)

/-- Result of `HumanObjectFileToGMObjectFile`: the filesystem after the
call together with the reported error, if any. -/
structure TrResult where
  fs : FS
  err : Option TrErr

/-- `HumanObjectFileToGMObjectFile` from the repository source: open and
XML-decode the existing GM object file as the base (error if missing or
malformed), open and parse the human file merging onto the base (error on
parse failure, base file untouched), then `os.Create` the GM object file
— truncating it — and XML-encode the merged object into it.  `writeOk`
models whether the post-truncation encode/write succeeds. -/
def HumanObjectFileToGMObjectFile (writeOk : Bool) (fs : FS)
    (humanFilename objFilename : Path) : TrResult :=
  match fs objFilename with
  | none => { fs := fs, err := some (.openErr objFilename) }
  | some (FileData.gmXml obj) =>
    match fs humanFilename with
    | none => { fs := fs, err := some (.openErr humanFilename) }
    | some (FileData.humanText t) =>
      match ReadHumanObject t obj with
      | .error e => { fs := fs, err := some (.readErr humanFilename e) }
      | .ok merged =>
        if writeOk then
          { fs := fsWrite (fsWrite fs objFilename FileData.blank)
              objFilename (FileData.gmXml merged), err := none }
        else
          { fs := fsWrite fs objFilename FileData.blank,
            err := some (.encodeErr objFilename) }
    | some _ => { fs := fs, err := some (.readErr humanFilename ParseError.badHeader) }
  | some _ => { fs := fs, err := some (.decodeErr objFilename) }

/-! ### Manifest (project file) model -/

/-- One resource reference entry of the project manifest. -/
structure MEntry where
  name : Path
  kind : String
deriving DecidableEq

/-- The project manifest: named groups, each an ordered entry list. -/
abbrev Manifest := List (String × List MEntry)

/-- Modelled from the spec: `AppendResourceToGMProject` (the spec's
`AppendManifestEntry`): append the entry at the end of the named group's
list; a no-op when an entry with that name already exists in the group;
an error when the group is absent.  Group order and existing entries are
preserved. -/
def AppendResourceToGMProject :
    Manifest → Path → String → String → Except TrErr Manifest
  | [], _, _, group => .error (.unknownGroupErr group)
  | (g, entries) :: rest, resName, resKind, group =>
    if g = group then
      if entries.any (fun en => en.name == resName) then
        .ok ((g, entries) :: rest)
      else
        .ok ((g, entries ++ [{ name := resName, kind := resKind }]) :: rest)
    else
      match AppendResourceToGMProject rest resName resKind group with
      | .error e => .error e
      | .ok rest2 => .ok ((g, entries) :: rest2)

/-! ### The per-event engine actions (`main.go`) -/

/-- `cp` from `main.go`: whole-file copy `dst ← src`. -/
def cp (fs : FS) (dst src : Path) : Except TrErr FS :=
  match fs src with
  | none => .error (.openErr src)
  | some d => .ok (fsWrite fs dst d)

/-- `translateHumanObject` from `main.go`: derive the object name
(first-dot split of the base name), check whether the GM counterpart
exists, translate, and — when the counterpart did not exist — append the
resource to the project file.  Errors are collected (the Go code prints
them) and never abort. -/
def translateHumanObject (r : Roots) (writeOk : Bool) (fs : FS) (m : Manifest)
    (humanObjPath : Path) : FS × Manifest × List TrErr :=
  let objName := firstDotPart (goBase humanObjPath)
  let gmObjPath := joinPath r.gmObjectsDir (objName ++ ".object.gmx".toList)
  let gmObjFileExisted := (fs gmObjPath).isSome
  let res := HumanObjectFileToGMObjectFile writeOk fs humanObjPath gmObjPath
  let errs := match res.err with | some e => [e] | none => []
  if gmObjFileExisted then (res.fs, m, errs)
  else
    match AppendResourceToGMProject m objName "object" "objects" with
    | .ok m2 => (res.fs, m2, errs)
    | .error e => (res.fs, m, errs ++ [e])

/-- `translateGMObject` from `main.go`. -/
def translateGMObject (r : Roots) (fs : FS) (gmObjPath : Path) :
    FS × List TrErr :=
  let objName := firstDotPart (goBase gmObjPath)
  let humanObjPath := joinPath r.humanDir (objName ++ ".gmo".toList)
  match GMObjectFileToHumanObjectFile fs gmObjPath humanObjPath with
  | .error e => (fs, [e])
  | .ok fs2 => (fs2, [])

/-- `copyHumanScript` from `main.go` (note: the Go code registers the
full file name, extension included, in the project file). -/
def copyHumanScript (r : Roots) (fs : FS) (m : Manifest)
    (humanScriptPath : Path) : FS × Manifest × List TrErr :=
  let fn := goBase humanScriptPath
  let gmScriptPath := joinPath r.gmScriptsDir fn
  let gmFileExisted := (fs gmScriptPath).isSome
  let step :=
    match cp fs gmScriptPath humanScriptPath with
    | .error e => (fs, [e])
    | .ok fs2 => (fs2, ([] : List TrErr))
  if gmFileExisted then (step.1, m, step.2)
  else
    match AppendResourceToGMProject m fn "script" "scripts" with
    | .ok m2 => (step.1, m2, step.2)
    | .error e => (step.1, m, step.2 ++ [e])

/-- `copyGMScript` from `main.go`. -/
def copyGMScript (r : Roots) (fs : FS) (gmScriptPath : Path) :
    FS × List TrErr :=
  let fn := goBase gmScriptPath
  let humanScriptPath := joinPath r.humanDir fn
  match cp fs humanScriptPath gmScriptPath with
  | .error e => (fs, [e])
  | .ok fs2 => (fs2, [])

/-- Everything one watcher event can affect: the rolling state, the
filesystem, the manifest, and the errors reported while handling it. -/
structure EngineResult where
  sync : SyncState
  fs : FS
  manifest : Manifest
  errs : List TrErr

/-- One full engine step: `processWatcherEvent` (classification, gating,
state recording) followed by the dispatched translation/copy acting on
the filesystem and manifest.  In `main.go` the state assignment precedes
the call textually and does not depend on its outcome. -/
def engineStep (r : Roots) (writeOk : Bool) (now : Int) (s : SyncState)
    (fs : FS) (m : Manifest) (e : Event) : EngineResult :=
  match processWatcherEvent r now s e with
  | (s2, none) => { sync := s2, fs := fs, manifest := m, errs := [] }
  | (s2, some (SyncAction.translateHuman p)) =>
    let out := translateHumanObject r writeOk fs m p
    { sync := s2, fs := out.1, manifest := out.2.1, errs := out.2.2 }
  | (s2, some (SyncAction.copyHuman p)) =>
    let out := copyHumanScript r fs m p
    { sync := s2, fs := out.1, manifest := out.2.1, errs := out.2.2 }
  | (s2, some (SyncAction.translateGM p)) =>
    let out := translateGMObject r fs p
    { sync := s2, fs := out.1, manifest := m, errs := out.2 }
  | (s2, some (SyncAction.copyGM p)) =>
    let out := copyGMScript r fs p
    { sync := s2, fs := out.1, manifest := m, errs := out.2 }

/-! ### Startup control flow of `main` -/

/-- The abort points of `main` (the single-argument path; the dialog path
is out of scope).  Each stage models one `return` on error. -/
inductive StartupStage
  | projectStatFailed
  | mkdirFailed
  | initialObjectsFailed
  | initialScriptsFailed
  | watcherCreateFailed
deriving DecidableEq

/-- Success/failure of each fallible startup step of `main`:
project-path validation (`os.Stat`/`IsDir`), creating the mirror
directory, the initial objects translation walk, the initial scripts copy
walk, creating the fsnotify watcher, and the `watcher.Add` calls (whose
failures `main` only logs). -/
structure StartupConds where
  projectStatOk : Bool
  mkdirOk : Bool
  initialObjectsOk : Bool
  initialScriptsOk : Bool
  watcherCreateOk : Bool
  watcherAddOk : Bool
deriving DecidableEq

/-- The startup control flow of `main`: which failure, if any, aborts the
process before it starts listening.  `watcher.Add` failures are logged
but do not abort (no `return` in `main`). -/
def mainStartup (c : StartupConds) : Option StartupStage :=
  if !c.projectStatOk then some .projectStatFailed
  else if !c.mkdirOk then some .mkdirFailed
  else if !c.initialObjectsOk then some .initialObjectsFailed
  else if !c.initialScriptsOk then some .initialScriptsFailed
  else if !c.watcherCreateOk then some .watcherCreateFailed
  else none

/-- Startup conditions where only watcher creation fails. -/
def watcherFailConds : StartupConds :=
  { projectStatOk := true, mkdirOk := true, initialObjectsOk := true,
    initialScriptsOk := true, watcherCreateOk := false, watcherAddOk := true }

/-! ### The spec's name-derivation (for comparison) and sample data -/

/-- The specification's resource-name derivation, in its words: the file
name with the format-specific suffix stripped (when the suffix is
present). -/
def stripSuffixL (l suffix : List Char) : List Char :=
  if suffix.isSuffixOf l then l.take (l.length - suffix.length) else l

/-- A structurally valid sample object with two events and native-only
content. -/
def sampleObject : GMObject :=
  { solid := true, visible := true, persistent := false,
    spriteName := "sprPlayer", maskName := "", depth := -5,
    physicsData := "native-only",
    events :=
      [{ category := "create", subtype := "0",
         actions := [{ kind := "execute_code", target := "self",
                       args := [.vstr "x = 0"] }] },
       { category := "step", subtype := "1",
         actions := [{ kind := "move", target := "self",
                       args := [.vnum 4, .vbool true] },
                     { kind := "destroy_instance", target := "other",
                       args := [] }] }] }

/-- The empty filesystem. -/
def emptyFS : FS := fun _ => none

/-- The GM-side counterpart path of `Enemy.gmo` under `exampleRoots`. -/
def enemyGMPath : Path := "example/objects/Enemy.object.gmx".toList

/-- A fresh manifest with empty `objects` and `scripts` groups. -/
def exampleManifest : Manifest := [("objects", []), ("scripts", [])]

/-- A mirror document whose event header carries an unknown category. -/
def badMirrorText : MirrorText :=
  [Tok.kw "solid", Tok.tbool true] ::
    [Tok.kw "visible", Tok.tbool true] ::
    [Tok.kw "persistent", Tok.tbool false] ::
    [Tok.kw "sprite", Tok.tstr "spr"] ::
    [Tok.kw "mask", Tok.tstr ""] ::
    [Tok.kw "depth", Tok.tint 0] ::
    [[Tok.kw "event", Tok.kw "explode", Tok.kw "0"]]

/-- Filesystem with a native `Enemy` object and a malformed mirror
counterpart. -/
def fsBadMirror : FS :=
  fsWrite (fsWrite emptyFS enemyGMPath (FileData.gmXml sampleObject))
    enemyMirrorPath (FileData.humanText badMirrorText)

/-- Filesystem with a native `Enemy` object and its well-formed mirror
counterpart. -/
def fsGoodMirror : FS :=
  fsWrite (fsWrite emptyFS enemyGMPath (FileData.gmXml sampleObject))
    enemyMirrorPath (FileData.humanText (WriteHumanObject sampleObject))

/-- Filesystem holding only the mirror `Enemy.gmo`: no native
counterpart exists. -/
def fsMirrorOnly : FS :=
  fsWrite emptyFS enemyMirrorPath
    (FileData.humanText (WriteHumanObject sampleObject))

/-! ### Helper lemmas -/

theorem extGo_nil : extGo [] = [] := rfl

theorem name_ne_nil_of_extGo_ne_nil {p : Path} (h : extGo p ≠ []) : p ≠ [] := by
  intro hp
  exact h (hp ▸ extGo_nil)

theorem humanFileTimingOk_fresh {f : Path} (hf : f ≠ []) :
    humanFileTimingOk initialSyncState 2000000000 f = true := by
  simp [humanFileTimingOk, initialSyncState, reverbSpacing]
  exact Or.inl hf

theorem gmFileTimingOk_fresh {f : Path} (hf : f ≠ []) :
    gmFileTimingOk initialSyncState 2000000000 f = true := by
  simp [gmFileTimingOk, initialSyncState, reverbSpacing]
  exact Or.inl hf

theorem processWatcherEvent_relevant_of_isSome {r : Roots} {e : Event}
    {t : Int} {s : SyncState}
    (h : ((processWatcherEvent r t s e).2).isSome = true) :
    eventRelevant r e = true := by
  by_cases hw : e.op = FileOp.write
  · simp only [processWatcherEvent, hw, if_true] at h
    simp only [eventRelevant, Bool.and_eq_true, Bool.or_eq_true,
      decide_eq_true_eq]
    refine ⟨hw, ?_⟩
    split at h
    next hc =>
      simp only [Bool.and_eq_true, decide_eq_true_eq] at hc
      exact Or.inl (Or.inl ⟨hc.1, Or.inl hc.2⟩)
    next =>
      split at h
      next hc =>
        simp only [Bool.and_eq_true, decide_eq_true_eq] at hc
        exact Or.inl (Or.inl ⟨hc.1, Or.inr hc.2⟩)
      next =>
        split at h
        next hc =>
          simp only [Bool.and_eq_true, decide_eq_true_eq] at hc
          exact Or.inl (Or.inr ⟨hc.1, hc.2⟩)
        next =>
          split at h
          next hc =>
            simp only [Bool.and_eq_true, decide_eq_true_eq] at hc
            exact Or.inr ⟨hc.1, hc.2⟩
          next => simp at h
  · simp [processWatcherEvent, hw] at h

theorem isPrefixOf_true_iff {a b : Path} :
    a.isPrefixOf b = true ↔ a <+: b := List.isPrefixOf_iff_prefix

theorem not_prefix_of_isPrefixOf_eq_false {a b : Path}
    (h : a.isPrefixOf b = false) : ¬ a <+: b :=
  fun hc => absurd (isPrefixOf_true_iff.mpr hc) (by simp [h])

theorem processWatcherEvent_none_of_irrelevant {r : Roots} {e : Event}
    (h : eventRelevant r e = false) (t : Int) (s : SyncState) :
    processWatcherEvent r t s e = (s, none) := by
  by_cases hw : e.op = FileOp.write
  · have hd : decide (e.op = FileOp.write) = true := by simp [hw]
    rw [eventRelevant, hd, Bool.true_and] at h
    simp only [Bool.or_eq_false_iff, Bool.and_eq_false_iff] at h
    obtain ⟨⟨ha, hb⟩, hc⟩ := h
    have Ha : ¬(r.humanDir <+: e.name) ∨
        (¬(extGo e.name = ['.', 'g', 'm', 'o']) ∧
          ¬(extGo e.name = ['.', 'g', 'm', 'l'])) := by
      rcases ha with ha | ha
      · exact Or.inl (not_prefix_of_isPrefixOf_eq_false ha)
      · exact Or.inr ⟨by simpa using ha.1, by simpa using ha.2⟩
    have Hb : ¬(r.gmObjectsDir <+: e.name) ∨
        ¬(extGo e.name = ['.', 'g', 'm', 'x']) := by
      rcases hb with hb | hb
      · exact Or.inl (not_prefix_of_isPrefixOf_eq_false hb)
      · exact Or.inr (by simpa using hb)
    have Hc : ¬(r.gmScriptsDir <+: e.name) ∨
        ¬(extGo e.name = ['.', 'g', 'm', 'l']) := by
      rcases hc with hc | hc
      · exact Or.inl (not_prefix_of_isPrefixOf_eq_false hc)
      · exact Or.inr (by simpa using hc)
    rcases Ha with Ha | ⟨Ha1, Ha2⟩ <;> rcases Hb with Hb | Hb <;>
      rcases Hc with Hc | Hc
    · simp [processWatcherEvent, hw, Ha, Hb, Hc]
    · simp [processWatcherEvent, hw, Ha, Hb, Hc]
    · simp [processWatcherEvent, hw, Ha, Hb, Hc]
    · simp [processWatcherEvent, hw, Ha, Hb, Hc]
    · simp [processWatcherEvent, hw, Ha1, Ha2, Hb, Hc]
    · simp [processWatcherEvent, hw, Ha1, Ha2, Hb, Hc]
    · simp [processWatcherEvent, hw, Ha1, Ha2, Hb, Hc]
    · simp [processWatcherEvent, hw, Ha1, Ha2, Hb, Hc]
  · simp [processWatcherEvent, hw]

/-- C6.  An event can be dispatched to a translation/copy iff it is a
write-kind event whose path has one of the three roots as prefix with the
matching extension; all other events are ignored with no state change and
no error (in particular a `.txt` file written inside the mirror root). -/
theorem classification_gates_dispatch :
    (∀ (r : Roots) (e : Event),
      ((∃ (t : Int) (s : SyncState),
          ((processWatcherEvent r t s e).2).isSome = true) ↔
        eventRelevant r e = true) ∧
      (eventRelevant r e = false →
        ∀ (t : Int) (s : SyncState), processWatcherEvent r t s e = (s, none))) ∧
    (∀ (t : Int) (s : SyncState),
      processWatcherEvent exampleRoots t s
        { name := "example/gm_txt/notes.txt".toList, op := FileOp.write } =
        (s, none)) := by
  constructor
  · intro r e
    constructor
    · constructor
      · rintro ⟨t, s, h⟩
        exact processWatcherEvent_relevant_of_isSome h
      · intro hrel
        refine ⟨2000000000, initialSyncState, ?_⟩
        simp only [eventRelevant, Bool.and_eq_true, Bool.or_eq_true,
          decide_eq_true_eq] at hrel
        obtain ⟨hw, hcls⟩ := hrel
        have hne : e.name ≠ [] := by
          rcases hcls with (⟨_, h | h⟩ | ⟨_, h⟩) | ⟨_, h⟩ <;>
            exact name_ne_nil_of_extGo_ne_nil (by rw [h]; decide)
        rcases hcls with (⟨hp, hx | hx⟩ | ⟨hp, hx⟩) | ⟨hp, hx⟩
        · have hp' := isPrefixOf_true_iff.mp hp
          have hx' : extGo e.name = ['.', 'g', 'm', 'o'] := by simpa using hx
          simp [processWatcherEvent, hw, hp', hx',
            humanFileTimingOk_fresh hne]
        · have hp' := isPrefixOf_true_iff.mp hp
          have hx' : extGo e.name = ['.', 'g', 'm', 'l'] := by simpa using hx
          simp [processWatcherEvent, hw, hp', hx',
            humanFileTimingOk_fresh hne]
        · have hp' := isPrefixOf_true_iff.mp hp
          have hx' : extGo e.name = ['.', 'g', 'm', 'x'] := by simpa using hx
          simp [processWatcherEvent, hw, hp', hx',
            gmFileTimingOk_fresh hne]
        · have hp' := isPrefixOf_true_iff.mp hp
          have hx' : extGo e.name = ['.', 'g', 'm', 'l'] := by simpa using hx
          by_cases hh : r.humanDir.isPrefixOf e.name = true
          · have hh' := isPrefixOf_true_iff.mp hh
            simp [processWatcherEvent, hw, hp', hx', hh',
              humanFileTimingOk_fresh hne]
          · have hh' : ¬(r.humanDir <+: e.name) := by simpa using hh
            simp [processWatcherEvent, hw, hp', hx', hh',
              gmFileTimingOk_fresh hne]
    · intro h t s
      exact processWatcherEvent_none_of_irrelevant h t s
  · intro t s
    have h0 : eventRelevant exampleRoots
        { name := "example/gm_txt/notes.txt".toList, op := FileOp.write } =
        false := by decide
    exact processWatcherEvent_none_of_irrelevant h0 t s

/-- Witness for `reverb_suppression_characterization`: the 200 ms
scenario, derived through the characterization. -/
theorem reverb_suppression_witness :
    humanFileTimingOk afterGMTranslation 1200000000 enemyMirrorPath = false :=
  (reverb_suppression_characterization.1 afterGMTranslation 1200000000
    enemyMirrorPath).mpr (Or.inl (by decide))

/-- Witness for `classification_gates_dispatch`: the `.txt`-in-mirror-root
scenario at a concrete time and state. -/
theorem classification_gates_dispatch_witness :
    processWatcherEvent exampleRoots 42 initialSyncState
      { name := "example/gm_txt/notes.txt".toList, op := FileOp.write } =
      (initialSyncState, none) :=
  classification_gates_dispatch.2 42 initialSyncState

/-- C3.  An event is suppressed as a duplicate when its path equals the
side's own last-changed path within `dedupSpacing`; when no reverb
suppression applies this is exactly the suppression condition.  Two
notifications for the same path 10 ms apart yield exactly one dispatched
translation. -/
theorem dedup_suppression :
    (∀ (s : SyncState) (t : Int) (f : Path),
      s.lastHumanFileChanged = f → t - s.humanChanged ≤ dedupSpacing →
        humanFileTimingOk s t f = false) ∧
    (∀ (s : SyncState) (t : Int) (f : Path),
      s.lastGMFileChanged = f → t - s.gmChanged ≤ dedupSpacing →
        gmFileTimingOk s t f = false) ∧
    (∀ (s : SyncState) (t : Int) (f : Path), t - s.gmChanged > reverbSpacing →
      (humanFileTimingOk s t f = false ↔
        (s.lastHumanFileChanged = f ∧ t - s.humanChanged ≤ dedupSpacing))) ∧
    (∀ (s : SyncState) (t : Int) (f : Path), t - s.humanChanged > reverbSpacing →
      (gmFileTimingOk s t f = false ↔
        (s.lastGMFileChanged = f ∧ t - s.gmChanged ≤ dedupSpacing))) ∧
    ((processWatcherEvent exampleRoots 2000000000 initialSyncState
        { name := enemyMirrorPath, op := FileOp.write }).2 =
      some (.translateHuman enemyMirrorPath) ∧
      processWatcherEvent exampleRoots 2010000000
        (processWatcherEvent exampleRoots 2000000000 initialSyncState
          { name := enemyMirrorPath, op := FileOp.write }).1
        { name := enemyMirrorPath, op := FileOp.write } =
        ((processWatcherEvent exampleRoots 2000000000 initialSyncState
          { name := enemyMirrorPath, op := FileOp.write }).1, none)) := by
  refine ⟨?_, ?_, ?_, ?_, by decide, by decide⟩
  · intro s t f h1 h2
    simp only [humanFileTimingOk, Bool.and_eq_false_iff, Bool.or_eq_false_iff,
      decide_eq_false_iff_not, not_lt, not_not]
    exact Or.inr ⟨h1, h2⟩
  · intro s t f h1 h2
    simp only [gmFileTimingOk, Bool.and_eq_false_iff, Bool.or_eq_false_iff,
      decide_eq_false_iff_not, not_lt, not_not]
    exact Or.inr ⟨h1, h2⟩
  · intro s t f h
    simp only [humanFileTimingOk, Bool.and_eq_false_iff, Bool.or_eq_false_iff,
      decide_eq_false_iff_not, not_lt, not_not]
    constructor
    · rintro (h1 | h1)
      · omega
      · exact h1
    · exact Or.inr
  · intro s t f h
    simp only [gmFileTimingOk, Bool.and_eq_false_iff, Bool.or_eq_false_iff,
      decide_eq_false_iff_not, not_lt, not_not]
    constructor
    · rintro (h1 | h1)
      · omega
      · exact h1
    · exact Or.inr

/-- Witness for `dedup_suppression`: a second notification for
`Enemy.gmo` 5 ms after the first is suppressed. -/
theorem dedup_suppression_witness :
    humanFileTimingOk
      { gmChanged := 0, humanChanged := 1995000000,
        lastGMFileChanged := [], lastHumanFileChanged := enemyMirrorPath }
      2000000000 enemyMirrorPath = false :=
  dedup_suppression.1 _ 2000000000 enemyMirrorPath rfl (by decide)

/-! ### Round-trip of the translator -/

theorem parseValue_writeValue (v : GMValue) :
    parseValue (writeValue v) = some v := by
  cases v <;> rfl

theorem parseValues_map_writeValue (l : List GMValue) :
    parseValues (l.map writeValue) = some l := by
  induction l with
  | nil => rfl
  | cons v vs ih => simp [parseValues, parseValue_writeValue, ih]

theorem isActionLine_writeAction (a : ActionBlock) :
    isActionLine (writeAction a) = true := rfl

theorem parseActionLine_writeAction (a : ActionBlock)
    (h : validAction a = true) : parseActionLine (writeAction a) = .ok a := by
  have ha : actionArity a.kind = some a.args.length := by
    simpa [validAction] using h
  simp [parseActionLine, writeAction, ha, parseValues_map_writeValue]

theorem parseActionLines_map (acts : List ActionBlock)
    (h : acts.all validAction = true) :
    parseActionLines (acts.map writeAction) = .ok acts := by
  induction acts with
  | nil => rfl
  | cons a as ih =>
    obtain ⟨h1, h2⟩ : validAction a = true ∧ as.all validAction = true := by
      simpa using h
    simp [parseActionLines, parseActionLine_writeAction a h1, ih h2]

theorem takeWhile_writeActions (acts : List ActionBlock) (tail : List Line)
    (htail : isActionLine (tail.headD []) = false) :
    (acts.map writeAction ++ tail).takeWhile isActionLine =
        acts.map writeAction ∧
      (acts.map writeAction ++ tail).dropWhile isActionLine = tail := by
  induction acts with
  | nil =>
    simp only [List.map_nil, List.nil_append]
    cases tail with
    | nil => exact ⟨rfl, rfl⟩
    | cons hd tl =>
      rw [List.takeWhile_cons, List.dropWhile_cons]
      simp only [List.headD_cons] at htail
      simp [htail]
  | cons a as ih =>
    obtain ⟨ih1, ih2⟩ := ih
    constructor
    · simp [List.takeWhile_cons, isActionLine_writeAction, ih1]
    · simp [List.dropWhile_cons, isActionLine_writeAction, ih2]

theorem flatten_writeEvents_headD (evs : List EventBlock) :
    isActionLine (((evs.map writeEvent).flatten).headD []) = false := by
  cases evs with
  | nil => rfl
  | cons e es => rfl

theorem parseEvents_flatten_writeEvents (evs : List EventBlock)
    (h : evs.all validEvent = true) :
    parseEvents ((evs.map writeEvent).flatten) = .ok evs := by
  induction evs with
  | nil => simp [parseEvents]
  | cons e es ih =>
    obtain ⟨he, hes⟩ : validEvent e = true ∧ es.all validEvent = true := by
      simpa using h
    obtain ⟨hcat, hacts⟩ : knownEventCategories.contains e.category = true ∧
        e.actions.all validAction = true := by
      simpa [validEvent] using he
    have hmem : e.category ∈ knownEventCategories := by simpa using hcat
    have hflat : ((e :: es).map writeEvent).flatten =
        [Tok.kw "event", Tok.kw e.category, Tok.kw e.subtype] ::
          (e.actions.map writeAction ++ (es.map writeEvent).flatten) := by
      simp [writeEvent]
    obtain ⟨htake, hdrop⟩ :=
      takeWhile_writeActions e.actions _ (flatten_writeEvents_headD es)
    rw [hflat]
    simp [parseEvents, htake, hdrop, hmem,
      parseActionLines_map e.actions hacts, ih hes]

theorem ReadHumanObject_WriteHumanObject (o : GMObject)
    (h : structurallyValid o = true) :
    ReadHumanObject (WriteHumanObject o) o = .ok o := by
  have hev := parseEvents_flatten_writeEvents o.events
    (by simpa [structurallyValid] using h)
  simp [WriteHumanObject, ReadHumanObject, hev]

/-- C2.  For every structurally valid native object `R`, translating to
mirror text and merging that text back onto `R` itself returns exactly
`R`, field for field, EventBlock/ActionBlock order included. -/
theorem translator_round_trip (R : GMObject)
    (h : structurallyValid R = true) :
    ReadHumanObject (WriteHumanObject R) R = Except.ok R :=
  ReadHumanObject_WriteHumanObject R h

/-- Witness for `translator_round_trip` on a concrete two-event object. -/
theorem translator_round_trip_witness :
    structurallyValid sampleObject = true ∧
    ReadHumanObject (WriteHumanObject sampleObject) sampleObject =
      Except.ok sampleObject :=
  ⟨by decide, translator_round_trip sampleObject (by decide)⟩

/-! ### Error behaviour of the file-level wrappers -/

/-- C8.  When the mirror document fails to parse, the wrapper reports the
parse error and returns the filesystem unchanged: the pre-existing native
counterpart is byte-for-byte untouched, since the native file is only
opened for writing after a successful parse. -/
theorem malformed_mirror_leaves_native_untouched :
    ∀ (w : Bool) (fs : FS) (humanFile objFile : Path) (t : MirrorText)
      (o : GMObject) (e : ParseError),
      fs objFile = some (FileData.gmXml o) →
      fs humanFile = some (FileData.humanText t) →
      ReadHumanObject t o = .error e →
      HumanObjectFileToGMObjectFile w fs humanFile objFile =
        { fs := fs, err := some (.readErr humanFile e) } := by
  intro w fs humanFile objFile t o e h1 h2 h3
  simp [HumanObjectFileToGMObjectFile, h1, h2, h3]

/-- Witness for `malformed_mirror_leaves_native_untouched`: an unknown
event-header token in `Enemy.gmo`. -/
theorem malformed_mirror_witness :
    HumanObjectFileToGMObjectFile true fsBadMirror enemyMirrorPath
        enemyGMPath =
      { fs := fsBadMirror,
        err := some (.readErr enemyMirrorPath
          (ParseError.unknownEvent "explode")) } :=
  malformed_mirror_leaves_native_untouched true fsBadMirror enemyMirrorPath
    enemyGMPath badMirrorText sampleObject (ParseError.unknownEvent "explode")
    (by decide) (by decide)
    (by
      have hno : ¬("explode" ∈ knownEventCategories) := by decide
      simp [ReadHumanObject, badMirrorText, parseEvents, hno])

/-- C10.  If the mirror parse succeeds but the subsequent encode/write of
the native file fails, the native file was already truncated by
`os.Create`: the wrapper reports the error while the native path now
holds the truncated (blank) content, no longer its original content — a
failed translation is not atomic with respect to the native output. -/
theorem failed_encode_truncates_native :
    ∀ (fs : FS) (humanFile objFile : Path) (t : MirrorText)
      (o merged : GMObject),
      fs objFile = some (FileData.gmXml o) →
      fs humanFile = some (FileData.humanText t) →
      ReadHumanObject t o = .ok merged →
      (HumanObjectFileToGMObjectFile false fs humanFile objFile).err =
          some (.encodeErr objFile) ∧
        (HumanObjectFileToGMObjectFile false fs humanFile objFile).fs
            objFile = some FileData.blank ∧
        (HumanObjectFileToGMObjectFile false fs humanFile objFile).fs
            objFile ≠ fs objFile := by
  intro fs humanFile objFile t o merged h1 h2 h3
  refine ⟨?_, ?_, ?_⟩ <;>
    simp [HumanObjectFileToGMObjectFile, h1, h2, h3, fsWrite]

/-- Witness for `failed_encode_truncates_native` on the concrete `Enemy`
files. -/
theorem failed_encode_truncates_native_witness :
    (HumanObjectFileToGMObjectFile false fsGoodMirror enemyMirrorPath
        enemyGMPath).err = some (.encodeErr enemyGMPath) ∧
      (HumanObjectFileToGMObjectFile false fsGoodMirror enemyMirrorPath
        enemyGMPath).fs enemyGMPath = some FileData.blank ∧
      (HumanObjectFileToGMObjectFile false fsGoodMirror enemyMirrorPath
        enemyGMPath).fs enemyGMPath ≠ fsGoodMirror enemyGMPath :=
  failed_encode_truncates_native fsGoodMirror enemyMirrorPath enemyGMPath
    (WriteHumanObject sampleObject) sampleObject sampleObject
    (by decide) (by decide)
    (ReadHumanObject_WriteHumanObject sampleObject (by decide))

/-- C5, evaluated at the failing input.  A mirror `Enemy.gmo` is written
with no native counterpart: `HumanObjectFileToGMObjectFile` opens the
native counterpart first and fails, so no native object file is produced
(no schema-default skeleton path exists in the code), while
`translateHumanObject` still appends the `{Enemy, object}` entry to the
manifest's `objects` group. -/
theorem new_object_from_mirror_eval :
    (translateHumanObject exampleRoots true fsMirrorOnly exampleManifest
        enemyMirrorPath).1 enemyGMPath = none ∧
      (translateHumanObject exampleRoots true fsMirrorOnly exampleManifest
        enemyMirrorPath).2.2 = [TrErr.openErr enemyGMPath] ∧
      (translateHumanObject exampleRoots true fsMirrorOnly exampleManifest
        enemyMirrorPath).2.1 =
        [("objects", [{ name := "Enemy".toList, kind := "object" }]),
          ("scripts", [])] := by
  decide

/-! ### Sync-state recording (C4) -/

/-- C4 counterexample: an event that passes both suppression checks
updates the source side's rolling state even though the dispatched
translation fails (here: both files missing, so the translation reports
an open error). -/
theorem state_update_on_failure_counterexample :
    (engineStep exampleRoots true 2000000000 initialSyncState emptyFS
        exampleManifest { name := enemyMirrorPath, op := FileOp.write }).errs ≠
        [] ∧
      (engineStep exampleRoots true 2000000000 initialSyncState emptyFS
          exampleManifest { name := enemyMirrorPath, op := FileOp.write }).sync =
        { gmChanged := 0, humanChanged := 2000000000,
          lastGMFileChanged := [], lastHumanFileChanged := enemyMirrorPath } := by
  decide

/-- C4 amended.  The rolling sync state after a full engine step is
exactly what `processWatcherEvent` records at dispatch time: it is set
before the translation runs and does not depend on the filesystem, the
manifest, or whether the translation succeeds. -/
theorem state_update_amended :
    ∀ (r : Roots) (w : Bool) (now : Int) (s : SyncState) (fs : FS)
      (m : Manifest) (e : Event),
      (engineStep r w now s fs m e).sync =
        (processWatcherEvent r now s e).1 := by
  intro r w now s fs m e
  unfold engineStep
  rcases hpe : processWatcherEvent r now s e with ⟨s2, a⟩
  cases a with
  | none => rfl
  | some act => cases act <;> rfl

/-- Witness for `state_update_amended` at a concrete step whose
translation fails. -/
theorem state_update_amended_witness :
    (engineStep exampleRoots true 2000000000 initialSyncState emptyFS
        exampleManifest ⟨enemyMirrorPath, FileOp.write⟩).sync =
      (processWatcherEvent exampleRoots 2000000000 initialSyncState
        ⟨enemyMirrorPath, FileOp.write⟩).1 :=
  state_update_amended exampleRoots true 2000000000 initialSyncState emptyFS
    exampleManifest ⟨enemyMirrorPath, FileOp.write⟩

/-! ### Name derivation (C7) -/

theorem splitOnChar_not_mem (sep : Char) :
    ∀ (l : List Char), sep ∉ l → splitOnChar sep l = [l]
  | [], _ => rfl
  | c :: cs, h => by
    have hc : ¬(c = sep) := fun hh => h (by rw [hh]; exact List.mem_cons_self _ _)
    have ih := splitOnChar_not_mem sep cs (fun hh => h (List.mem_cons_of_mem _ hh))
    simp [splitOnChar, hc, ih]

theorem splitOnChar_append (sep : Char) :
    ∀ (xs ys : List Char), sep ∉ xs →
      splitOnChar sep (xs ++ sep :: ys) = xs :: splitOnChar sep ys
  | [], ys, _ => by simp [splitOnChar]
  | x :: xs, ys, h => by
    have hx : ¬(x = sep) := fun hh => h (by rw [hh]; exact List.mem_cons_self _ _)
    have ih := splitOnChar_append sep xs ys (fun hh => h (List.mem_cons_of_mem _ hh))
    simp [splitOnChar, hx, ih]

theorem firstDotPart_append (stem tail : Path) (h : '.' ∉ stem) :
    firstDotPart (stem ++ '.' :: tail) = stem := by
  rw [firstDotPart, splitOnChar_append '.' stem tail h]
  rfl

theorem stripSuffixL_append (xs ys : List Char) :
    stripSuffixL (xs ++ ys) ys = xs := by
  have hs : ys.isSuffixOf (xs ++ ys) = true := by
    rw [List.isSuffixOf_iff_suffix]
    exact List.suffix_append xs ys
  rw [stripSuffixL, if_pos hs]
  simp [List.take_left]

/-- C7 counterexample: for a mirror file `a.b.gmo` — a base name that
itself contains a dot — the engine derives the name `a` (first-dot
split), while the claimed suffix-stripping yields `a.b`. -/
theorem resource_name_counterexample :
    firstDotPart (goBase "example/gm_txt/a.b.gmo".toList) = "a".toList ∧
      stripSuffixL (goBase "example/gm_txt/a.b.gmo".toList) ".gmo".toList =
        "a.b".toList ∧
      firstDotPart (goBase "example/gm_txt/a.b.gmo".toList) ≠
        stripSuffixL (goBase "example/gm_txt/a.b.gmo".toList)
          ".gmo".toList := by
  decide

/-- C7 amended.  The name the engine derives is the part of the file name
before its first dot; this coincides with stripping the format-specific
suffix exactly when the stem contains no dot (the common `Name.gmo`
shape). -/
theorem resource_name_amended :
    (∀ (stem tail : Path), '.' ∉ stem →
      firstDotPart (stem ++ '.' :: tail) = stem) ∧
    (∀ stem : Path, '.' ∉ stem →
      firstDotPart (stem ++ ".gmo".toList) = stem ∧
        stripSuffixL (stem ++ ".gmo".toList) ".gmo".toList = stem) := by
  constructor
  · exact firstDotPart_append
  · intro stem h
    constructor
    · have hg : (".gmo".toList : Path) = '.' :: "gmo".toList := by decide
      rw [hg]
      exact firstDotPart_append stem _ h
    · exact stripSuffixL_append stem _

/-- Witness for `resource_name_amended` at the stem `Enemy`. -/
theorem resource_name_amended_witness :
    firstDotPart ("Enemy".toList ++ ".gmo".toList) = "Enemy".toList ∧
      stripSuffixL ("Enemy".toList ++ ".gmo".toList) ".gmo".toList =
        "Enemy".toList :=
  resource_name_amended.2 "Enemy".toList (by decide)

/-! ### Fatal error classes (C9) -/

/-- C9 counterexample: with the mirror directory created and both initial
walks successful, a watcher-creation failure still aborts startup — a
fatal class beyond the two the claim allows. -/
theorem fatal_classes_counterexample :
    mainStartup watcherFailConds = some StartupStage.watcherCreateFailed ∧
      watcherFailConds.mkdirOk = true ∧
      watcherFailConds.initialObjectsOk = true ∧
      watcherFailConds.initialScriptsOk = true ∧
      mainStartup watcherFailConds ≠ none := by
  decide

/-- C9 amended.  Startup reaches the listening state iff project-path
validation, mirror-directory creation, the initial objects walk, the
initial scripts walk and watcher creation all succeed — five fatal
classes rather than two; `watcher.Add` failures (and per-event errors,
which `engineStep` merely reports) never abort. -/
theorem fatal_classes_amended :
    ∀ c : StartupConds,
      mainStartup c = none ↔
        (c.projectStatOk = true ∧ c.mkdirOk = true ∧
          c.initialObjectsOk = true ∧ c.initialScriptsOk = true ∧
          c.watcherCreateOk = true) := by
  intro c
  obtain ⟨a, b, c1, d, e1, f⟩ := c
  cases a <;> cases b <;> cases c1 <;> cases d <;> cases e1 <;> cases f <;>
    simp [mainStartup]

/-- Witness for `fatal_classes_amended`: all startup steps succeeding
reaches the listening state. -/
theorem fatal_classes_amended_witness :
    mainStartup ⟨true, true, true, true, true, true⟩ = none :=
  (fatal_classes_amended ⟨true, true, true, true, true, true⟩).mpr
    ⟨rfl, rfl, rfl, rfl, rfl⟩

end NiceObjects
